import Mathlib

/-!
# Verification of the RR report processing core (`src/RRReportProcessor.js`)

This file gives a shallow embedding of the row-extraction and unit-classification
pipeline of the RR dashboard component and proves the specification claims about
it.  The embedding models:

* spreadsheet cell values (`Cell`): a cell produced by `sheet_to_json` with
  `defval: ''` is a string, a number, a `Date` object (`cellDates: true`), or
  `undefined` (for indices past the end of a ragged row);
* JavaScript `Date` values (`JSDate`): a time value in milliseconds since the
  epoch, or the Invalid Date (NaN time value);
* JavaScript builtins used by the source (`parseInt`, `parseFloat`, `trim`,
  `toLowerCase`, `includes`, the `Date` constructor, `toLocaleDateString`).
  The builtin models are documented at each definition; they cover the decimal
  behaviour exercised by the program (JS number formatting for non-integral
  numbers and implementation-defined date-string parsing are modelled by the
  formats noted at each definition, and the IEEE-754 width of JS numbers by
  exact decimals).

The source reads the wall clock (`new Date()`) inside `categorizeUnit` and
`calculateDaysUntilReady`; the embedding passes the reference instant `today`
(in milliseconds) as an explicit parameter, as the spec directs for
deterministic testing.  A JavaScript exception (the only reachable one is the
`TypeError` from calling `.toLowerCase()` on a non-string) is modelled by
`Option`: `none` is a thrown exception.
-/

/-- JS whitespace as used by `trim` / `\s` (ASCII subset; the program only
meets ASCII whitespace). -/
def isWs (c : Char) : Bool := c == ' ' || c == '\t' || c == '\n' || c == '\r'

/-- Model of `String.prototype.trim` on the character list. -/
def trimChars (l : List Char) : List Char :=
  ((l.dropWhile isWs).reverse.dropWhile isWs).reverse

/-- Model of `String.prototype.trim`. -/
def jsTrim (s : String) : String := ⟨trimChars s.data⟩

/-- Model of `String.prototype.toLowerCase` (ASCII; the program compares
against ASCII keywords only). -/
def jsToLower (s : String) : String := ⟨s.data.map Char.toLower⟩

/-- `p` is a leading segment of `l`. -/
def isPre (p l : List Char) : Bool :=
  match p, l with
  | [], _ => true
  | _ :: _, [] => false
  | a :: as, b :: bs => a == b && isPre as bs

/-- `n` occurs as a contiguous run inside `l`. -/
def hasSubChars (n : List Char) : List Char → Bool
  | [] => isPre n []
  | c :: rest => isPre n (c :: rest) || hasSubChars n rest

/-- Model of `String.prototype.includes hay.includes(needle)`. -/
def hasSub (hay needle : String) : Bool := hasSubChars needle.data hay.data

/-- The character class `[A-Z0-9-]` under the `/i` flag. -/
def isAlnumHyphen (c : Char) : Bool := c.isDigit || c.isAlpha || c == '-'

/-- Model of `firstCell.match(/^\s*[A-Z0-9-]+\s*$/i)` viewed as a Boolean:
the string is surrounded-by-whitespace around one nonempty run of
alphanumeric-or-hyphen characters. -/
def regexIdent (s : String) : Bool :=
  let t := trimChars s.data
  !t.isEmpty && t.all isAlnumHyphen

/-- JS `split('/')` on a character list (JS `"".split('/') = [""]`). -/
def splitOnChar (sep : Char) : List Char → List (List Char)
  | [] => [[]]
  | c :: rest =>
    let r := splitOnChar sep rest
    if c == sep then [] :: r
    else
      match r with
      | [] => [[c]]
      | h :: t => (c :: h) :: t

/-- Decimal digits of a character run, most significant first. -/
def digitsToNat (l : List Char) : Nat :=
  l.foldl (fun a c => a * 10 + (c.toNat - 48)) 0

/-- Longest leading run of decimal digits, and the remainder. -/
def splitDigits : List Char → List Char × List Char
  | [] => ([], [])
  | c :: rest =>
    if c.isDigit then
      let p := splitDigits rest
      (c :: p.1, p.2)
    else ([], c :: rest)

/-- Hex digit test for the `0x` branch of `parseInt`. -/
def isHexDigit (c : Char) : Bool :=
  c.isDigit || ('a' ≤ c && c ≤ 'f') || ('A' ≤ c && c ≤ 'F')

/-- Value of one hex digit. -/
def hexVal (c : Char) : Nat :=
  if c.isDigit then c.toNat - 48
  else if 'a' ≤ c && c ≤ 'f' then c.toNat - 87
  else c.toNat - 55

/-- Longest leading run of hex digits, and the remainder. -/
def splitHexDigits : List Char → List Char × List Char
  | [] => ([], [])
  | c :: rest =>
    if isHexDigit c then
      let p := splitHexDigits rest
      (c :: p.1, p.2)
    else ([], c :: rest)

/-- Model of `parseInt(str)` (radix unspecified, so radix 10 with the `0x`/`0X`
hexadecimal prefix): skip leading whitespace, optional sign, then the longest
numeric prefix; `none` models `NaN` (no digits found). -/
def jsParseIntL (l : List Char) : Option Int :=
  let go : List Char → Option Nat := fun cs =>
    match cs with
    | '0' :: x :: rest =>
      if x == 'x' || x == 'X' then
        let p := splitHexDigits rest
        if p.1.isEmpty then none
        else some (p.1.foldl (fun a c => a * 16 + hexVal c) 0)
      else
        let p := splitDigits ('0' :: x :: rest)
        if p.1.isEmpty then none else some (digitsToNat p.1)
    | cs =>
      let p := splitDigits cs
      if p.1.isEmpty then none else some (digitsToNat p.1)
  match l.dropWhile isWs with
  | '-' :: rest => (go rest).map (fun n => -(n : Int))
  | '+' :: rest => (go rest).map (fun n => (n : Int))
  | cs => (go cs).map (fun n => (n : Int))

/-- A JS number as an exact decimal: the value `mant / 10 ^ scale`.  Exact
decimals carry every sign, zero and comparison fact the program relies on;
the IEEE-754 rounding of JS numbers never changes any of those on the
decimal literals a spreadsheet holds. -/
structure JSNum where
  mant : Int
  scale : Nat
deriving DecidableEq, Repr

/-- The canonical zero. -/
def jsNumZero : JSNum := ⟨0, 0⟩

/-- Embedding of an integer. -/
def JSNum.ofInt (n : Int) : JSNum := ⟨n, 0⟩

/-- Numeric `a < b` on exact decimals (cross-multiplied by the positive
powers of ten). -/
def JSNum.ltb (a b : JSNum) : Bool :=
  decide (a.mant * 10 ^ b.scale < b.mant * 10 ^ a.scale)

/-- Numeric `a ≤ b` on exact decimals. -/
def JSNum.leb (a b : JSNum) : Bool :=
  decide (a.mant * 10 ^ b.scale ≤ b.mant * 10 ^ a.scale)

/-- Negation. -/
def JSNum.neg (a : JSNum) : JSNum := ⟨-a.mant, a.scale⟩

/-- Mantissa/exponent assembly for `parseFloat`: integer part digits,
fraction digits and decimal exponent give `digits * 10 ^ (e - |fp|)`. -/
def jsNumOfParts (ip fp : List Char) (e : Int) : JSNum :=
  let m : Int := (digitsToNat (ip ++ fp) : Int)
  let s : Int := (fp.length : Int) - e
  if 0 ≤ s then ⟨m, s.toNat⟩ else ⟨m * 10 ^ (-s).toNat, 0⟩

/-- Decimal core of `parseFloat` after sign handling: digits, optional
fraction, optional exponent.  `none` models `NaN`. -/
def jsParseFloatCore (cs : List Char) : Option JSNum :=
  let ipp := splitDigits cs
  let afterInt := ipp.2
  let fpp :=
    match afterInt with
    | '.' :: r2 => splitDigits r2
    | _ => ([], afterInt)
  let rest := fpp.2
  if ipp.1.isEmpty && fpp.1.isEmpty then none
  else
    let exp : Int :=
      match rest with
      | 'e' :: '-' :: r3 =>
        let ep := splitDigits r3
        if ep.1.isEmpty then 0 else -(digitsToNat ep.1 : Int)
      | 'E' :: '-' :: r3 =>
        let ep := splitDigits r3
        if ep.1.isEmpty then 0 else -(digitsToNat ep.1 : Int)
      | 'e' :: '+' :: r3 =>
        let ep := splitDigits r3
        if ep.1.isEmpty then 0 else (digitsToNat ep.1 : Int)
      | 'E' :: '+' :: r3 =>
        let ep := splitDigits r3
        if ep.1.isEmpty then 0 else (digitsToNat ep.1 : Int)
      | 'e' :: r3 =>
        let ep := splitDigits r3
        if ep.1.isEmpty then 0 else (digitsToNat ep.1 : Int)
      | 'E' :: r3 =>
        let ep := splitDigits r3
        if ep.1.isEmpty then 0 else (digitsToNat ep.1 : Int)
      | _ => 0
    some (jsNumOfParts ipp.1 fpp.1 exp)

/-- Model of `parseFloat(str)`: skip leading whitespace, optional sign, then
the longest decimal-number prefix; `none` models `NaN`.  (The `"Infinity"`
literal is not modelled; no claim concerns it.) -/
def jsParseFloat (s : String) : Option JSNum :=
  match s.data.dropWhile isWs with
  | '-' :: rest => (jsParseFloatCore rest).map JSNum.neg
  | '+' :: rest => jsParseFloatCore rest
  | cs => jsParseFloatCore cs

/-- A JavaScript `Date` value: a time value in milliseconds since the Unix
epoch, or the Invalid Date (NaN time value). -/
inductive JSDate where
  | valid (ms : Int) : JSDate
  | invalid : JSDate
deriving DecidableEq, Repr

/-- Milliseconds per day, the divisor `1000 * 60 * 60 * 24` of the source. -/
def msPerDay : Int := 1000 * 60 * 60 * 24

/-- `Math.ceil(a / b)` for integers with `b > 0`, as used on millisecond
differences. -/
def jsCeilDiv (a b : Int) : Int := -((-a).fdiv b)

/-- The largest ECMAScript `Date` time value, `8.64e15` ms (±100,000,000
days around the epoch, ECMA-262 TimeClip). -/
def maxTimeValue : Int := 8640000000000000

/-- A time value within the ECMAScript `Date` range. -/
def dateInRange (ms : Int) : Bool := ms ≤ maxTimeValue && -maxTimeValue ≤ ms

/-- ECMA-262 TimeClip: a time value beyond `±8.64e15` ms becomes NaN, i.e.
the Invalid Date. -/
def timeClip (ms : Int) : JSDate :=
  if dateInRange ms then JSDate.valid ms else JSDate.invalid

/-- Days from the epoch to the civil date `y-m-d` (proleptic Gregorian,
month 1-12); standard civil-from-days arithmetic.  Local time is identified
with UTC: the program never crosses a timezone boundary in a claim. -/
def daysFromCivil (y m d : Int) : Int :=
  let y1 := if m ≤ 2 then y - 1 else y
  let era := y1.fdiv 400
  let yoe := y1 - era * 400
  let mp := if 2 < m then m - 3 else m + 9
  let doy := (153 * mp + 2).fdiv 5 + (d - 1)
  let doe := yoe * 365 + yoe.fdiv 4 - yoe.fdiv 100 + doy
  era * 146097 + doe - 719468

/-- Civil date `(y, m, d)` of a day count since the epoch (inverse of
`daysFromCivil`). -/
def civilFromDays (z0 : Int) : Int × Int × Int :=
  let z := z0 + 719468
  let era := z.fdiv 146097
  let doe := z - era * 146097
  let yoe := (doe - doe.fdiv 1460 + doe.fdiv 36524 - doe.fdiv 146096).fdiv 365
  let doy := doe - (365 * yoe + yoe.fdiv 4 - yoe.fdiv 100)
  let mp := (5 * doy + 2).fdiv 153
  let d := doy - (153 * mp + 2).fdiv 5 + 1
  let m := if mp < 10 then mp + 3 else mp - 9
  (yoe + era * 400 + (if m ≤ 2 then 1 else 0), m, d)

/-- Midnight of the civil date `y-m-d` in milliseconds since the epoch. -/
def mkMs (y m d : Int) : Int := daysFromCivil y m d * msPerDay

/-- Model of the `new Date(year, month0, day)` constructor on already
evaluated integer arguments: a year in `0..99` maps to `1900 + year`, the
0-based month and the day roll over arithmetically. -/
def jsDateYMD (y m0 d : Int) : Int :=
  let y1 := if 0 ≤ y && y ≤ 99 then y + 1900 else y
  let yy := y1 + m0.fdiv 12
  let mm := m0.emod 12 + 1
  (daysFromCivil yy mm 1 + (d - 1)) * msPerDay

/-- `new Date(y, m0, d)` where each argument is the result of `parseInt`
(`none` = NaN); any NaN argument yields the Invalid Date, and an assembled
time value beyond the `±8.64e15` ms clamp is Invalid as well (e.g.
`new Date(9999999, 0, 1)` lies past the last representable date
275760-09-13). -/
def jsDateCtor (y m0 d : Option Int) : JSDate :=
  match y, m0, d with
  | some y, some m0, some d => timeClip (jsDateYMD y m0 d)
  | _, _, _ => JSDate.invalid

/-- A spreadsheet cell as delivered by `sheet_to_json(..., {header: 1,
defval: ''})` with `cellDates: true`: a string, a number, a `Date`, or
`undefined` for an index past the end of a ragged row.  Numbers are exact
rationals (see `jsParseFloat`); `Date` cells are always valid dates. -/
inductive Cell where
  | str (s : String) : Cell
  | num (q : JSNum) : Cell
  | date (ms : Int) : Cell
  | empty : Cell
deriving DecidableEq, Repr

/-- JS truthiness of a cell: `''`, `0` and `undefined` are falsy, every
other string/number and every `Date` object is truthy. -/
def cellTruthy : Cell → Bool
  | Cell.str s => !(s == "")
  | Cell.num q => !(q.mant == 0)
  | Cell.date _ => true
  | Cell.empty => false

/-- Decimal rendering of an integer (JS `String(n)`), used by `numToStr`. -/
def intToStr (n : Int) : String := toString n

/-- Model of JS number-to-string coercion.  Integral numbers render as their
decimal digits, exactly as in JS; a non-integral number renders as
`num.den`, which like the JS rendering consists only of digits, `.` and a
possible leading `-` — the program only ever asks whether such a string is
empty after trimming, whether it matches `[A-Z0-9-]+`, whether it contains an
alphabetic keyword, and how it splits on `/`, and on those questions the
model agrees with JS for every number. -/
def numToStr (q : JSNum) : String :=
  if q.scale == 0 then intToStr q.mant
  else intToStr q.mant ++ "." ++ toString q.scale

/-- Model of JS `Date`-to-string coercion.  A JS date string such as
`"Mon Jan 01 2024 ..."` is nonempty, contains interior spaces (so it never
matches `^\s*[A-Z0-9-]+\s*$`), contains no `/`, and lower-cases to text
containing none of the category keywords nor `"total"` nor `"yes"`; the
rendering `"Day <ms>"` has the same four properties. -/
def dateToStr (ms : Int) : String := "Day " ++ intToStr ms

/-- JS `toString()` coercion of a cell.  `undefined.toString()` would throw,
but every `toString` call in the source is guarded by a truthiness test, so
the `empty` case is never reached; it is mapped to `""`. -/
def Cell.toStr : Cell → String
  | Cell.str s => s
  | Cell.num q => numToStr q
  | Cell.date ms => dateToStr ms
  | Cell.empty => ""

/-- The idiom `x || ''`: the cell itself when truthy, else the string `''`. -/
def cellOrEmptyStr (c : Cell) : Cell :=
  if cellTruthy c then c else Cell.str ""

/-- `parseFloat` applied to a cell (JS coerces the argument to a string;
for a number cell the round trip returns the number itself, and a `Date`
or `undefined` string never parses). -/
def cellParseFloat : Cell → Option JSNum
  | Cell.str s => jsParseFloat s
  | Cell.num q => some q
  | Cell.date _ => none
  | Cell.empty => none

/-- The idiom `parseFloat(c) || 0`: `NaN` and `0` both collapse to `0`. -/
def jsOr0 : Option JSNum → JSNum
  | none => jsNumZero
  | some q => if q.mant == 0 then jsNumZero else q

/-- `.toLowerCase()` on a cell: defined only for strings; a number, `Date`
or `undefined` in that position throws a `TypeError` (modelled by `none`). -/
def cellToLower : Cell → Option String
  | Cell.str s => some (jsToLower s)
  | _ => none

/-- Whether a cell is a string. -/
def isStrCell : Cell → Bool
  | Cell.str _ => true
  | _ => false

/-- Truncation toward zero of an exact decimal (JS `ToInteger` on a time
value). -/
def jsNumTrunc (q : JSNum) : Int := Int.tdiv q.mant (10 ^ q.scale)

/-- Date-string recognition for the one-argument `new Date(string)`
constructor: the model accepts the fully numeric forms `YYYY-MM-DD` and
`M/D/YYYY` that a Yardi export can contain and treats every other string as
unparseable.  (ECMA-262 leaves non-ISO forms implementation-defined; only
the success/failure split matters to any claim.) -/
def jsDateOfString (s : String) : JSDate :=
  let t := trimChars s.data
  match splitOnChar '-' t with
  | [a, b, c] =>
    if !a.isEmpty && a.all Char.isDigit && !b.isEmpty && b.all Char.isDigit
        && !c.isEmpty && c.all Char.isDigit then
      timeClip (mkMs (digitsToNat a) (digitsToNat b) (digitsToNat c))
    else JSDate.invalid
  | _ =>
    match splitOnChar '/' t with
    | [a, b, c] =>
      if !a.isEmpty && a.all Char.isDigit && !b.isEmpty && b.all Char.isDigit
          && !c.isEmpty && c.all Char.isDigit then
        timeClip (mkMs (digitsToNat c) (digitsToNat a) (digitsToNat b))
      else JSDate.invalid
    | _ => JSDate.invalid

/-- The one-argument `new Date(value)` constructor on a cell value: a number
is taken as milliseconds since the epoch (truncated toward zero and clamped
by TimeClip), a string is parsed, a `Date` is copied, `undefined` gives the
Invalid Date. -/
def jsNewDate : Cell → JSDate
  | Cell.num q => timeClip (jsNumTrunc q)
  | Cell.str s => jsDateOfString s
  | Cell.date ms => JSDate.valid ms
  | Cell.empty => JSDate.invalid

/-- Model of `Date.prototype.toLocaleDateString()` in the `en-US` locale of
the dashboard: `M/D/YYYY`; the Invalid Date renders as `"Invalid Date"`. -/
def localeDateString : JSDate → String
  | JSDate.valid ms =>
    let c := civilFromDays (ms.fdiv msPerDay)
    intToStr c.2.1 ++ "/" ++ intToStr c.2.2 ++ "/" ++ intToStr c.1
  | JSDate.invalid => "Invalid Date"

/-- The value of `daysUntilReady`: JS `null`, JS `NaN`, or an integer. -/
inductive JSNumOrNull where
  | nullv : JSNumOrNull
  | nanv : JSNumOrNull
  | intv (n : Int) : JSNumOrNull
deriving DecidableEq, Repr

/-- The canonical unit record built by `cleanAndProcessData`.  Raw fields keep
the JS types the source gives them: `unitCode` and `rentReady` are strings
(trimmed resp. lower-cased by construction), `askingRent` is a number,
`estimatedReadyDate` is `parseDate`'s `Date`-or-`null`, and the passthrough
fields keep the raw cell (`row[k] || ''`), so a number or `Date` cell stays a
number or `Date`. -/
structure UnitRecord where
  unitCode : String
  unitType : Cell
  unitDescription : Cell
  rentalType : Cell
  vacantAsOf : Cell
  vacateType : Cell
  futureMoveInDate : Cell
  workOrder : Cell
  askingRent : JSNum
  makeReadyNotes : Cell
  estimatedReadyDate : Option JSDate
  rentReady : String
  actualReadyDate : Cell
  jobCode : Cell
  comments : Cell
  property : String
  category : String
  status : String
  daysUntilReady : JSNumOrNull
  hasIssues : Bool
deriving DecidableEq, Repr

/-- `parseDate` (source lines 150-167): falsy or whitespace-only input gives
`null`; a string that splits on `/` into exactly three parts is fed through
`parseInt` into `new Date(year, month - 1, day)` (so non-numeric parts give
the Invalid Date, not `null`); any other shape gives `null`.  Nothing in the
body can throw, so the `try`/`catch` is dead. -/
def parseDate (dateStr : Cell) : Option JSDate :=
  if !cellTruthy dateStr then none
  else
    let trimmed := trimChars (dateStr.toStr).data
    if trimmed.isEmpty then none
    else
      match splitOnChar '/' trimmed with
      | [p1, p2, p3] =>
        some (jsDateCtor (jsParseIntL p3) ((jsParseIntL p1).map (fun m => m - 1)) (jsParseIntL p2))
      | _ => none

/-- Leading `\d+[a-z]+` match (case-insensitive): the leading digit run
followed by the letter run after it, or `""` when the string does not start
with digits followed by a letter. -/
def leadingDigitsLetters (l : List Char) : List Char :=
  let ds := l.takeWhile Char.isDigit
  let rest := l.drop ds.length
  match rest with
  | [] => []
  | c :: _ =>
    if ds.isEmpty then []
    else if c.isAlpha then ds ++ rest.takeWhile Char.isAlpha
    else []

/-- `extractPropertyFromUnitType` (source lines 169-177): falsy input gives
`""`; otherwise trim, strip leading zeros (`replace(/^0+/, '')`) and take the
leading `\d+[a-z]+` match. -/
def extractPropertyFromUnitType (unitType : Cell) : String :=
  if !cellTruthy unitType then ""
  else
    let trimmed := trimChars (unitType.toStr).data
    let woz := trimmed.dropWhile (fun c => c == '0')
    ⟨leadingDigitsLetters woz⟩

/-- The body of `categorizeUnit` (source lines 190-228) after the two
`toLowerCase()` calls have succeeded with results `rt` and `cm`; this part is
total.  An Invalid Date in `estimatedReadyDate` is truthy, and its NaN
`diffDays` fails both `<=` tests, landing in `More than 60 Days`. -/
def categorizeStr (today : Int) (u : UnitRecord) (rt cm : String) : String :=
  if hasSub rt "development" || hasSub rt "model" || hasSub rt "hold" || hasSub rt "down"
      || hasSub cm "development" || hasSub cm "hold" || hasSub cm "model" || hasSub cm "down" then
    "Down/Hold/Model/Development"
  else if cellTruthy u.futureMoveInDate && !(jsTrim u.futureMoveInDate.toStr == "") then
    "Already Rented"
  else if u.rentReady == "yes" then
    if cellTruthy u.actualReadyDate then "Available & Rent Ready"
    else "Available & Rent Ready (Flagged)"
  else
    match u.estimatedReadyDate with
    | some (JSDate.valid ms) =>
      let diffDays := jsCeilDiv (ms - today) msPerDay
      if diffDays ≤ 30 then "Available in Next 30 Days"
      else if diffDays ≤ 60 then "Available in Next 31-60 Days"
      else "Available in More than 60 Days"
    | some JSDate.invalid => "Available in More than 60 Days"
    | none => "Unknown"

/-- `categorizeUnit` (source lines 190-228).  The first two statements call
`.toLowerCase()` on the raw `rentalType` and `comments` fields; on a
non-string cell that throws a `TypeError`, modelled by `none`. -/
def categorizeUnit (today : Int) (u : UnitRecord) : Option String :=
  match cellToLower u.rentalType, cellToLower u.comments with
  | some rt, some cm => some (categorizeStr today u rt cm)
  | _, _ => none

/-- `getUnitStatus` (source lines 230-235). -/
def getUnitStatus (u : UnitRecord) : String :=
  if u.category == "Already Rented" then "Rented"
  else if u.category == "Down/Hold/Model/Development" then "Not Available"
  else if u.category == "Available & Rent Ready" then "Ready Now"
  else "Future"

/-- The shared estimated-date branch of `calculateDaysUntilReady`: `null`
when `estimatedReadyDate` is `null`, the NaN difference when it is the
Invalid Date (truthy, so not `null`), else the ceiling day count. -/
def estimatedBranch (today : Int) (u : UnitRecord) : JSNumOrNull :=
  match u.estimatedReadyDate with
  | none => JSNumOrNull.nullv
  | some (JSDate.valid ms) => JSNumOrNull.intv (jsCeilDiv (ms - today) msPerDay)
  | some JSDate.invalid => JSNumOrNull.nanv

/-- `calculateDaysUntilReady` (source lines 237-261): with `rentReady ==
"yes"` and a truthy `actualReadyDate`, a `Date` instance is used directly and
any other value is coerced with `new Date(...)`, falling back to the
estimated branch when the coercion is NaN; otherwise the estimated branch
runs.  The function never throws. -/
def calculateDaysUntilReady (today : Int) (u : UnitRecord) : JSNumOrNull :=
  if u.rentReady == "yes" && cellTruthy u.actualReadyDate then
    match u.actualReadyDate with
    | Cell.date ms => JSNumOrNull.intv (jsCeilDiv (ms - today) msPerDay)
    | c =>
      match jsNewDate c with
      | JSDate.valid ms => JSNumOrNull.intv (jsCeilDiv (ms - today) msPerDay)
      | JSDate.invalid => estimatedBranch today u
  else estimatedBranch today u

/-- `checkForIssues` (source lines 263-285): the `hasActualReadyDate` and
`hasMoveinDate` tests are the same truthiness tests as in `categorizeUnit`,
and the three `if`s return `true` on the first hit. -/
def checkForIssues (u : UnitRecord) : Bool :=
  let hasActualReadyDate := cellTruthy u.actualReadyDate
  let hasMoveinDate := cellTruthy u.futureMoveInDate && !(jsTrim u.futureMoveInDate.toStr == "")
  let isDownHoldModel := u.category == "Down/Hold/Model/Development"
  if u.rentReady == "yes" && !hasActualReadyDate then true
  else if hasMoveinDate && !(u.rentReady == "yes") then true
  else if isDownHoldModel && u.rentReady == "yes" then true
  else false

/-- `row[k]`: `undefined` past the end of the row. -/
def getCell (row : List Cell) (k : Nat) : Cell := row.getD k Cell.empty

/-- `(row[0] || '').toString().trim()` (source line 292). -/
def firstCellOf (row : List Cell) : String :=
  jsTrim (cellOrEmptyStr (getCell row 0)).toStr

/-- `row.some(cell => cell && cell.toString().trim() !== '')`
(source line 294). -/
def rowHasContent (row : List Cell) : Bool :=
  row.any (fun cell => cellTruthy cell && !(jsTrim cell.toStr == ""))

/-- The `hasUnitData` test (source lines 301-303): second cell truthy and
non-blank, and then either a truthy non-blank third cell or a truthy ninth
cell whose `parseFloat` is `> 0` (NaN fails the comparison). -/
def hasUnitData (row : List Cell) : Bool :=
  cellTruthy (getCell row 1) && !(jsTrim (getCell row 1).toStr == "")
    && ((cellTruthy (getCell row 2) && !(jsTrim (getCell row 2).toStr == ""))
        || (cellTruthy (getCell row 8)
            && (match cellParseFloat (getCell row 8) with
                | some q => JSNum.ltb jsNumZero q
                | none => false)))

/-- The record literal of source lines 311-332 (raw fields only; the four
derived fields start at their initial defaults). -/
def buildRaw (row : List Cell) : UnitRecord :=
  { unitCode := firstCellOf row
    unitType := cellOrEmptyStr (getCell row 1)
    unitDescription := cellOrEmptyStr (getCell row 2)
    rentalType := cellOrEmptyStr (getCell row 3)
    vacantAsOf := cellOrEmptyStr (getCell row 4)
    vacateType := cellOrEmptyStr (getCell row 5)
    futureMoveInDate := cellOrEmptyStr (getCell row 6)
    workOrder := cellOrEmptyStr (getCell row 7)
    askingRent := jsOr0 (cellParseFloat (getCell row 8))
    makeReadyNotes := cellOrEmptyStr (getCell row 9)
    estimatedReadyDate := parseDate (getCell row 10)
    rentReady := jsToLower (cellOrEmptyStr (getCell row 11)).toStr
    actualReadyDate := cellOrEmptyStr (getCell row 12)
    jobCode := cellOrEmptyStr (getCell row 13)
    comments := cellOrEmptyStr (getCell row 14)
    property := extractPropertyFromUnitType (getCell row 1)
    category := ""
    status := ""
    daysUntilReady := JSNumOrNull.intv 0
    hasIssues := false }

/-- Source lines 334-337: the four derived fields are assigned in order
(`category`, then `status` which reads it, then `daysUntilReady` and
`hasIssues`, the latter reading `category`).  `categorizeUnit` is the only
assignment that can throw. -/
def buildUnit (today : Int) (row : List Cell) : Option UnitRecord :=
  let u0 := buildRaw row
  match categorizeUnit today u0 with
  | none => none
  | some cat =>
    let u1 := { u0 with category := cat }
    some { u1 with
            status := getUnitStatus u1
            daysUntilReady := calculateDaysUntilReady today u1
            hasIssues := checkForIssues u1 }

/-- The `for (let i = 6; ...)` loop of `cleanAndProcessData` (source lines
287-344), written as a scan over all rows that skips indices below 6; a
thrown classifier exception propagates out of the loop (`none`). -/
def processFrom (today : Int) : Nat → List (List Cell) → Option (List UnitRecord)
  | _, [] => some []
  | i, row :: rest =>
    if i < 6 then processFrom today (i + 1) rest
    else
      let firstCell := firstCellOf row
      if !rowHasContent row then processFrom today (i + 1) rest
      else if hasSub (jsToLower firstCell) "total" then processFrom today (i + 1) rest
      else if regexIdent firstCell then
        if !hasUnitData row then processFrom today (i + 1) rest
        else
          match buildUnit today row with
          | none => none
          | some u => (processFrom today (i + 1) rest).map (fun l => u :: l)
      else processFrom today (i + 1) rest

/-- `cleanAndProcessData` (source lines 287-344). -/
def cleanAndProcessData (today : Int) (jsonData : List (List Cell)) : Option (List UnitRecord) :=
  processFrom today 0 jsonData

/-- The rendering of `actualReadyDate` in the export (source lines 623-625):
truthy `Date` values print as locale date strings, other truthy values as
their `toString`, falsy values as `''`. -/
def renderActual (c : Cell) : String :=
  if cellTruthy c then
    match c with
    | Cell.date ms => localeDateString (JSDate.valid ms)
    | c => c.toStr
  else ""

/-- One data row of `exportToExcel` (source lines 610-633): raw fields pass
through unchanged, `askingRent` is written as a number, the two dates are
rendered as strings, `hasIssues` as `"Yes"`/`"No"`. -/
def exportRow (u : UnitRecord) : List Cell :=
  [ Cell.str u.unitCode
  , u.unitType
  , u.unitDescription
  , u.rentalType
  , u.vacantAsOf
  , u.vacateType
  , u.futureMoveInDate
  , u.workOrder
  , Cell.num u.askingRent
  , u.makeReadyNotes
  , Cell.str (match u.estimatedReadyDate with
              | some d => localeDateString d
              | none => "")
  , Cell.str u.rentReady
  , Cell.str (renderActual u.actualReadyDate)
  , u.jobCode
  , u.comments
  , Cell.str u.property
  , Cell.str u.category
  , Cell.str u.status
  , (match u.daysUntilReady with
     | JSNumOrNull.intv n => Cell.num (JSNum.ofInt n)
     | _ => Cell.empty)
  , Cell.str (if u.hasIssues then "Yes" else "No") ]

/-- The header row of `exportToExcel` (source lines 604-609). -/
def exportHeader : List Cell :=
  [ Cell.str "Unit Code", Cell.str "Unit Type", Cell.str "Unit Description"
  , Cell.str "Rental Type", Cell.str "Vacant As Of", Cell.str "Vacate Type"
  , Cell.str "Future Move In Date", Cell.str "Work Order", Cell.str "Asking Rent"
  , Cell.str "Make Ready Notes", Cell.str "Estimated Ready Date", Cell.str "Rent Ready"
  , Cell.str "Actual Ready Date", Cell.str "Job Code", Cell.str "Comments"
  , Cell.str "Property", Cell.str "Category", Cell.str "Status"
  , Cell.str "Days Until Ready", Cell.str "Has Issues" ]

/-- The grid `exportToExcel` hands to `aoa_to_sheet` (source lines 603-634). -/
def exportGrid (l : List UnitRecord) : List (List Cell) :=
  exportHeader :: l.map exportRow

/-! ## Claim-side definitions

The following definitions are written from the wording of the specification
claims (not from the source) and are compared against the translated source
functions above. -/

/-- The eight category strings the data model enumerates. -/
def categoriesList : List String :=
  [ "Available & Rent Ready"
  , "Available & Rent Ready (Flagged)"
  , "Available in Next 30 Days"
  , "Available in Next 31-60 Days"
  , "Available in More than 60 Days"
  , "Already Rented"
  , "Down/Hold/Model/Development"
  , "Unknown" ]

/-- The keyword set of categorization rule 1. -/
def specKeywords : List String := ["development", "model", "hold", "down"]

/-- The string content of a string cell (the claims' rules speak of the
string fields of the record). -/
def strOfCell : Cell → String
  | Cell.str s => s
  | _ => ""

/-- The five-rule first-match decision list exactly as claim C1 states it:
keyword hit in `rentalType` or `comments`; else a non-blank
`futureMoveInDate`; else the `rentReady = "yes"` split on `actualReadyDate`
presence; else the `diffDays` bucketing of a present `estimatedReadyDate`;
else `Unknown`. -/
def specCategorize (today : Int) (u : UnitRecord) : String :=
  let rt := jsToLower (strOfCell u.rentalType)
  let cm := jsToLower (strOfCell u.comments)
  if specKeywords.any (fun k => hasSub rt k || hasSub cm k) then
    "Down/Hold/Model/Development"
  else if !(jsTrim u.futureMoveInDate.toStr == "") then
    "Already Rented"
  else if u.rentReady == "yes" then
    if cellTruthy u.actualReadyDate then "Available & Rent Ready"
    else "Available & Rent Ready (Flagged)"
  else
    match u.estimatedReadyDate with
    | some (JSDate.valid ms) =>
      let diffDays := jsCeilDiv (ms - today) msPerDay
      if diffDays ≤ 30 then "Available in Next 30 Days"
      else if diffDays ≤ 60 then "Available in Next 31-60 Days"
      else "Available in More than 60 Days"
    | _ => "Unknown"

/-- The date-selection rule of claim C2: coerce `actualReadyDate` when
`rentReady = "yes"` and it is non-empty (a `Date` instance is already a
date), fall back to the estimated branch when the coercion fails. -/
def specCoerceActual : Cell → JSDate
  | Cell.date ms => JSDate.valid ms
  | c => jsNewDate c

/-- Claim C2's estimated branch: `null` when no estimated date, else the
ceiling day count (the claim's domain has no Invalid estimated date). -/
def specEstimatedBranch (today : Int) (u : UnitRecord) : JSNumOrNull :=
  match u.estimatedReadyDate with
  | some (JSDate.valid ms) => JSNumOrNull.intv (jsCeilDiv (ms - today) msPerDay)
  | _ => JSNumOrNull.nullv

/-- `daysUntilReady` as claim C2 states it. -/
def specDaysUntilReady (today : Int) (u : UnitRecord) : JSNumOrNull :=
  if u.rentReady == "yes" && cellTruthy u.actualReadyDate then
    match specCoerceActual u.actualReadyDate with
    | JSDate.valid ms => JSNumOrNull.intv (jsCeilDiv (ms - today) msPerDay)
    | JSDate.invalid => specEstimatedBranch today u
  else specEstimatedBranch today u

/-- "No usable date was available" per claim C2's selection rule: in the
actual-date branch, the coercion fails and no estimated date exists; in the
estimated branch, no estimated date exists. -/
def noUsableDate (u : UnitRecord) : Bool :=
  if u.rentReady == "yes" && cellTruthy u.actualReadyDate then
    (match specCoerceActual u.actualReadyDate with
     | JSDate.valid _ => false
     | JSDate.invalid => u.estimatedReadyDate.isNone)
  else u.estimatedReadyDate.isNone

/-- Check 1 of claim C3: claims ready but no confirmed date. -/
def specIssueReadyNoDate (u : UnitRecord) : Bool :=
  u.rentReady == "yes" && !cellTruthy u.actualReadyDate

/-- Check 2 of claim C3: move-in scheduled but not marked ready. -/
def specIssueRentedNotReady (u : UnitRecord) : Bool :=
  !(jsTrim u.futureMoveInDate.toStr == "") && !(u.rentReady == "yes")

/-- Check 3 of claim C3: held/down unit marked ready. -/
def specIssueDownButReady (u : UnitRecord) : Bool :=
  u.category == "Down/Hold/Model/Development" && u.rentReady == "yes"

/-- The per-row inclusion predicate of claim C4: index at least the header
offset 6, some non-blank cell, no `"total"` in the first cell, the
identifier pattern, and the unit-data check. -/
def specIncludesRow (i : Nat) (row : List Cell) : Bool :=
  decide (6 ≤ i) && rowHasContent row
    && !(hasSub (jsToLower (firstCellOf row)) "total")
    && regexIdent (firstCellOf row)
    && hasUnitData row

/-- Rows paired with their 0-based grid index, starting at `n`. -/
def withIdx (n : Nat) : List α → List (Nat × α)
  | [] => []
  | a :: l => (n, a) :: withIdx (n + 1) l

/-- Traversal of a list under `Option` (the claim-side shape of a loop that
either collects every element's result in order or aborts on the first
failure). -/
def mapMOpt (f : α → Option β) : List α → Option (List β)
  | [] => some []
  | a :: l =>
    match f a with
    | none => none
    | some b => (mapMOpt f l).map (fun t => b :: t)

/-- A cell that claim C10 calls blank: `undefined`, the number 0, or a
string that trims to empty. -/
def blankishCell (c : Cell) : Bool :=
  match c with
  | Cell.empty => true
  | Cell.num q => q.mant == 0
  | Cell.str s => jsTrim s == ""
  | Cell.date _ => false

/-- The shape every record surviving the extraction pipeline has, used as
the hypothesis of the round-trip claim C8: a trimmed identifier-shaped
`unitCode` with no `"total"` inside, string-valued `rentalType` and
`comments` (anything else would have thrown in the classifier), passthrough
cells that are fixed by `x || ''` (truthy or already `''`), a lower-case
fixed `rentReady`, and the unit-data condition in record form. -/
def wfRecord (u : UnitRecord) : Bool :=
  (jsTrim u.unitCode == u.unitCode) &&
  (regexIdent u.unitCode &&
  (!(hasSub (jsToLower u.unitCode) "total") &&
  (isStrCell u.rentalType &&
  (isStrCell u.comments &&
  ((cellOrEmptyStr u.unitType == u.unitType) &&
  ((cellOrEmptyStr u.unitDescription == u.unitDescription) &&
  ((cellOrEmptyStr u.vacantAsOf == u.vacantAsOf) &&
  ((cellOrEmptyStr u.vacateType == u.vacateType) &&
  ((cellOrEmptyStr u.futureMoveInDate == u.futureMoveInDate) &&
  ((cellOrEmptyStr u.workOrder == u.workOrder) &&
  ((cellOrEmptyStr u.makeReadyNotes == u.makeReadyNotes) &&
  ((cellOrEmptyStr u.jobCode == u.jobCode) &&
  ((jsToLower u.rentReady == u.rentReady) &&
  ((jsOr0 (some u.askingRent) == u.askingRent) &&
  (cellTruthy u.unitType &&
  (!(jsTrim u.unitType.toStr == "") &&
  ((cellTruthy u.unitDescription && !(jsTrim u.unitDescription.toStr == ""))
      || JSNum.ltb jsNumZero u.askingRent)))))))))))))))))

/-- The raw-field view claim C8 compares after a round trip: `unitCode`,
`askingRent` and the raw passthrough fields (the parsed
`estimatedReadyDate` and the derived fields are exactly what the claim
ignores). -/
structure RawView where
  unitCode : String
  unitType : Cell
  unitDescription : Cell
  rentalType : Cell
  vacantAsOf : Cell
  vacateType : Cell
  futureMoveInDate : Cell
  workOrder : Cell
  askingRent : JSNum
  makeReadyNotes : Cell
  rentReady : String
  actualReadyDate : Cell
  jobCode : Cell
  comments : Cell
deriving DecidableEq, Repr

/-- Projection of a record onto its raw fields. -/
def rawOf (u : UnitRecord) : RawView :=
  { unitCode := u.unitCode
    unitType := u.unitType
    unitDescription := u.unitDescription
    rentalType := u.rentalType
    vacantAsOf := u.vacantAsOf
    vacateType := u.vacateType
    futureMoveInDate := u.futureMoveInDate
    workOrder := u.workOrder
    askingRent := u.askingRent
    makeReadyNotes := u.makeReadyNotes
    rentReady := u.rentReady
    actualReadyDate := u.actualReadyDate
    jobCode := u.jobCode
    comments := u.comments }

/-- The raw fields a round trip through the export can reproduce:
everything verbatim except `actualReadyDate`, which the export renders to a
string (`toLocaleDateString` for a `Date` value) before the extractor reads
it back. -/
def expectedRaw (u : UnitRecord) : RawView :=
  { rawOf u with
      actualReadyDate := cellOrEmptyStr (Cell.str (renderActual u.actualReadyDate)) }

/-- A cell holding the number zero (any decimal rendering of it). -/
def isZeroNum : Cell → Bool
  | Cell.num q => q.mant == 0
  | _ => false

/-- The trimmed character list `parseDate` works on. -/
def dateTrimmed (c : Cell) : List Char := trimChars (c.toStr).data

/-- The `/`-separated parts of the trimmed input. -/
def dateParts (c : Cell) : List (List Char) := splitOnChar '/' (dateTrimmed c)

/-- The input shapes on which `parseDate` goes past its guards: a truthy
cell, non-blank after trimming, splitting into exactly three `/` parts. -/
def parseDateAttempted (c : Cell) : Bool :=
  cellTruthy c && !(dateTrimmed c).isEmpty && ((dateParts c).length == 3)

/-- Every slash part parses under `parseInt`. -/
def datePartsNumeric (c : Cell) : Bool :=
  (dateParts c).all (fun p => (jsParseIntL p).isSome)

/-- The time value `new Date(year, month - 1, day)` assembles from three
numeric slash parts, before ECMAScript clamps it (0 when the input does not
have that shape — those cases never reach the range test). -/
def rawDateMs (c : Cell) : Int :=
  match dateParts c with
  | [p1, p2, p3] =>
    match jsParseIntL p1, jsParseIntL p2, jsParseIntL p3 with
    | some m, some d, some y => jsDateYMD y (m - 1) d
    | _, _, _ => 0
  | _ => 0

/-! ## Concrete fixtures

Concrete records and grids used by witnesses and counterexamples. -/

/-- The fixed reference instant 2024-01-01 the spec's examples use. -/
def t2024 : Int := mkMs 2024 1 1

/-- A record whose raw fields are all the empty defaults. -/
def baseUnit : UnitRecord :=
  { unitCode := ""
    unitType := Cell.str ""
    unitDescription := Cell.str ""
    rentalType := Cell.str ""
    vacantAsOf := Cell.str ""
    vacateType := Cell.str ""
    futureMoveInDate := Cell.str ""
    workOrder := Cell.str ""
    askingRent := jsNumZero
    makeReadyNotes := Cell.str ""
    estimatedReadyDate := none
    rentReady := ""
    actualReadyDate := Cell.str ""
    jobCode := Cell.str ""
    comments := Cell.str ""
    property := ""
    category := ""
    status := ""
    daysUntilReady := JSNumOrNull.nullv
    hasIssues := false }

/-- The precedence example of claim C1: a model suite that is also marked
rent-ready with a confirmed date. -/
def modelSuiteUnit : UnitRecord :=
  { baseUnit with
      rentalType := Cell.str "Model Suite"
      rentReady := "yes"
      actualReadyDate := Cell.date (mkMs 2024 1 10) }

/-- Claim C2's first example: estimated ready 2024-01-15. -/
def estUnit : UnitRecord :=
  { baseUnit with estimatedReadyDate := some (JSDate.valid (mkMs 2024 1 15)) }

/-- Claim C2's second example: additionally rent-ready with actual date
2024-01-10. -/
def actualUnit : UnitRecord :=
  { estUnit with
      rentReady := "yes"
      actualReadyDate := Cell.date (mkMs 2024 1 10) }

/-- Claim C3's example: a future move-in on a unit not marked ready (the
category the classifier assigns it is `Already Rented`). -/
def rentedUnit : UnitRecord :=
  { baseUnit with
      futureMoveInDate := Cell.str "2025-01-01"
      rentReady := "no"
      category := "Already Rented" }

/-- A unit marked ready with no actual date (category
`Available & Rent Ready (Flagged)`). -/
def flaggedUnit : UnitRecord :=
  { baseUnit with rentReady := "yes" }

/-- A record skeleton whose `rentalType` holds a number cell. -/
def numRentalUnit : UnitRecord :=
  { baseUnit with rentalType := Cell.num ⟨1, 0⟩ }

/-- A data row whose rent cell holds the unparseable-as-positive string
`"-5"`; the description is non-blank so the row is extracted. -/
def rowNegRent : List Cell :=
  [ Cell.str "101", Cell.str "14t", Cell.str "2 Bedroom", Cell.str "", Cell.str ""
  , Cell.str "", Cell.str "", Cell.str "", Cell.str "-5", Cell.str ""
  , Cell.str "", Cell.str "", Cell.str "", Cell.str "", Cell.str "" ]

/-- Six header-offset filler rows followed by `rowNegRent`. -/
def gridNegRent : List (List Cell) := [[], [], [], [], [], [], rowNegRent]

/-- A data row whose `rentalType` column holds a numeric cell; the row
passes every extraction check and reaches the classifier. -/
def rowNumRental : List Cell :=
  [ Cell.str "102", Cell.str "14t", Cell.str "2 Bedroom", Cell.num ⟨5, 0⟩, Cell.str ""
  , Cell.str "", Cell.str "", Cell.str "", Cell.str "1200", Cell.str ""
  , Cell.str "", Cell.str "", Cell.str "", Cell.str "", Cell.str "" ]

/-- Six header-offset filler rows followed by `rowNumRental`. -/
def gridNumRental : List (List Cell) := [[], [], [], [], [], [], rowNumRental]

/-- A pipeline-shaped record (satisfies `wfRecord`) for the round-trip
claim. -/
def wfUnit : UnitRecord :=
  { baseUnit with
      unitCode := "101"
      unitType := Cell.str "14t"
      unitDescription := Cell.str "2 Bedroom"
      askingRent := ⟨1200, 0⟩
      rentReady := "no"
      property := "14t"
      category := "Unknown"
      status := "Future" }

/-- Six copies of `wfUnit`: after the extractor's header offset eats five
data rows of the re-exported grid, exactly one survives. -/
def wfList6 : List UnitRecord := List.replicate 6 wfUnit

/-- A row of blank-like cells only: the number 0, whitespace, `undefined`
and `0.00`. -/
def blankRow : List Cell :=
  [Cell.num ⟨0, 0⟩, Cell.str "   ", Cell.empty, Cell.num ⟨0, 2⟩]

/-- A grid of blank-like rows reaching past the header offset. -/
def blankGrid : List (List Cell) := List.replicate 8 blankRow

/-- A row whose unit-type cell is the number 0. -/
def rowZeroType : List Cell := [Cell.str "101", Cell.num ⟨0, 0⟩, Cell.str "desc"]

/-- A row whose rent cell is the number 0 and whose description is blank. -/
def rowZeroRent : List Cell :=
  [ Cell.str "101", Cell.str "14t", Cell.str "", Cell.str "", Cell.str ""
  , Cell.str "", Cell.str "", Cell.str "", Cell.num ⟨0, 0⟩ ]

/-! ## Helper lemmas -/

theorem isStrCell_exists {c : Cell} (h : isStrCell c = true) : ∃ s, c = Cell.str s := by
  cases c with
  | str s => exact ⟨s, rfl⟩
  | num q => simp [isStrCell] at h
  | date ms => simp [isStrCell] at h
  | empty => simp [isStrCell] at h

/-- The code tests `x && x.toString().trim() !== ''`; for every cell except a
zero number the leading truthiness test is redundant with the trim test. -/
theorem truthy_and_trim {c : Cell} (h : isZeroNum c = false) :
    (cellTruthy c && !(jsTrim c.toStr == "")) = !(jsTrim c.toStr == "") := by
  cases c with
  | str s =>
    by_cases hs : s = ""
    · subst hs; simp [cellTruthy, Cell.toStr, jsTrim, trimChars, isWs]
    · simp [cellTruthy, Cell.toStr, hs]
  | num q =>
    simp [isZeroNum] at h
    simp [cellTruthy, h]
  | date ms => simp [cellTruthy]
  | empty => simp [cellTruthy, Cell.toStr, jsTrim, trimChars, isWs]

/-- The source's eight-way disjunction of keyword tests and the claim's
`any` over the four keywords agree (`a`..`d`: `rentalType` hits in source
order, `e`..`h`: `comments` hits in source order). -/
theorem keyword_or_regroup (a b c d e f g h : Bool) :
    (a || b || c || d || e || f || g || h)
      = ((a || e) || ((b || g) || ((c || f) || ((d || h) || false)))) := by
  cases a <;> cases b <;> cases c <;> cases d <;> cases e <;> cases f
    <;> cases g <;> cases h <;> rfl

/-- On string-valued `rentalType`/`comments` cells the classifier reduces to
its total body. -/
theorem categorizeUnit_on_strings (today : Int) (u : UnitRecord) {rs cs : String}
    (hrs : u.rentalType = Cell.str rs) (hcs : u.comments = Cell.str cs) :
    categorizeUnit today u = some (categorizeStr today u (jsToLower rs) (jsToLower cs)) := by
  rw [categorizeUnit, hrs, hcs]
  rfl

/-- C1: for every unit record with string `rentalType`, `comments` and
`futureMoveInDate` fields and a well-formed estimated date (the claim's
domain, per the data model), `categorizeUnit` returns exactly the category
of the claim's five-rule first-match decision list; and the precedence
example — a `"Model Suite"` that is rent-ready with an actual date — still
lands in `Down/Hold/Model/Development`. -/
theorem categorizeUnit_decision_list :
    (∀ (today : Int) (u : UnitRecord),
        isStrCell u.rentalType = true → isStrCell u.comments = true →
        isZeroNum u.futureMoveInDate = false →
        u.estimatedReadyDate ≠ some JSDate.invalid →
        categorizeUnit today u = some (specCategorize today u))
    ∧ categorizeUnit t2024 modelSuiteUnit = some "Down/Hold/Model/Development" := by
  constructor
  · intro today u hrt hcm hfm hest
    obtain ⟨rs, hrs⟩ := isStrCell_exists hrt
    obtain ⟨cs, hcs⟩ := isStrCell_exists hcm
    rw [categorizeUnit_on_strings today u hrs hcs]
    congr 1
    rw [specCategorize, hrs, hcs]
    simp only [strOfCell, specKeywords, List.any_cons, List.any_nil]
    rw [categorizeStr]
    rw [keyword_or_regroup]
    rw [truthy_and_trim hfm]
    rcases h : u.estimatedReadyDate with _ | d
    · simp only [h]
    · rcases d with ms | _
      · simp only [h]
      · exact absurd h hest
  · decide

/-- Witness for C1: the decision-list equivalence applied to the concrete
record `estUnit`, whose estimated date 2024-01-15 is 14 days out, so rule 4
puts it in the 30-day bucket. -/
theorem categorizeUnit_decision_list_check :
    categorizeUnit t2024 estUnit = some (specCategorize t2024 estUnit)
      ∧ specCategorize t2024 estUnit = "Available in Next 30 Days" :=
  ⟨categorizeUnit_decision_list.1 t2024 estUnit (by decide) (by decide) (by decide)
      (by decide), by decide⟩

/-- When the estimated date is not the Invalid Date, the source's estimated
branch and the claim's estimated branch agree. -/
theorem estimatedBranch_eq (today : Int) (u : UnitRecord)
    (hest : u.estimatedReadyDate ≠ some JSDate.invalid) :
    estimatedBranch today u = specEstimatedBranch today u := by
  rcases h : u.estimatedReadyDate with _ | d
  · simp [estimatedBranch, specEstimatedBranch, h]
  · rcases d with ms | _
    · simp [estimatedBranch, specEstimatedBranch, h]
    · exact absurd h hest

/-- C2: `calculateDaysUntilReady` follows the claim's date-selection rule
(actual date when `rentReady = "yes"` and it is present, with fallback to
the estimated branch when the coercion fails), its result is `null` exactly
when no usable date was available, and on the fixed reference date
2024-01-01 the concrete examples give 14 (estimated 2024-01-15) and 9
(actual 2024-01-10). -/
theorem calculateDaysUntilReady_selection_rule :
    (∀ (today : Int) (u : UnitRecord), u.estimatedReadyDate ≠ some JSDate.invalid →
        calculateDaysUntilReady today u = specDaysUntilReady today u
        ∧ (calculateDaysUntilReady today u = JSNumOrNull.nullv ↔ noUsableDate u = true))
    ∧ calculateDaysUntilReady t2024 estUnit = JSNumOrNull.intv 14
    ∧ calculateDaysUntilReady t2024 actualUnit = JSNumOrNull.intv 9 := by
  refine ⟨?_, by decide, by decide⟩
  intro today u hest
  have heq : calculateDaysUntilReady today u = specDaysUntilReady today u := by
    unfold calculateDaysUntilReady specDaysUntilReady
    split_ifs with h
    · rcases ha : u.actualReadyDate with s | q | ms | _
      · simp only [specCoerceActual]
        rcases hn : jsNewDate (Cell.str s) with ms | _
        · simp [hn]
        · simp [hn, estimatedBranch_eq today u hest]
      · simp only [specCoerceActual]
        rcases hn : jsNewDate (Cell.num q) with ms | _
        · simp [hn]
        · simp [hn, estimatedBranch_eq today u hest]
      · rfl
      · simp only [specCoerceActual]
        rcases hn : jsNewDate Cell.empty with ms | _
        · simp [hn]
        · simp [hn, estimatedBranch_eq today u hest]
    · exact estimatedBranch_eq today u hest
  refine ⟨heq, ?_⟩
  rw [heq]
  unfold specDaysUntilReady noUsableDate
  split_ifs with h
  · rcases ha : specCoerceActual u.actualReadyDate with ms | _
    · simp
    · rcases hest2 : u.estimatedReadyDate with _ | d
      · simp [specEstimatedBranch, hest2]
      · rcases d with ms | _
        · simp [specEstimatedBranch, hest2]
        · exact absurd hest2 hest
  · rcases hest2 : u.estimatedReadyDate with _ | d
    · simp [specEstimatedBranch, hest2]
    · rcases d with ms | _
      · simp [specEstimatedBranch, hest2]
      · exact absurd hest2 hest

/-- Witness for C2: the selection rule applied to the concrete record
`actualUnit` (rent-ready, actual date 2024-01-10, estimated 2024-01-15),
where the actual-date branch wins and a usable date exists. -/
theorem calculateDaysUntilReady_selection_rule_check :
    (calculateDaysUntilReady t2024 actualUnit = specDaysUntilReady t2024 actualUnit
      ∧ (calculateDaysUntilReady t2024 actualUnit = JSNumOrNull.nullv
          ↔ noUsableDate actualUnit = true))
    ∧ specDaysUntilReady t2024 actualUnit = JSNumOrNull.intv 9 :=
  ⟨calculateDaysUntilReady_selection_rule.1 t2024 actualUnit (by decide), by decide⟩

/-- A three-deep `if`-`return true` chain is the disjunction of its
conditions. -/
theorem ite_chain_or (a b c : Bool) :
    (if a then true else if b then true else if c then true else false) = (a || b || c) := by
  cases a <;> cases b <;> cases c <;> rfl

/-- C3: `checkForIssues` is exactly the disjunction of the claim's three
checks (ready-without-date, rented-but-not-ready on a string move-in field,
down-but-ready), and on the concrete example — future move-in
`"2025-01-01"`, `rentReady "no"` — the classifier answers `Already Rented`
and the flag is raised. -/
theorem checkForIssues_three_checks :
    (∀ u : UnitRecord, isZeroNum u.futureMoveInDate = false →
        checkForIssues u
          = (specIssueReadyNoDate u || specIssueRentedNotReady u || specIssueDownButReady u))
    ∧ categorizeUnit t2024 rentedUnit = some "Already Rented"
    ∧ checkForIssues rentedUnit = true := by
  refine ⟨?_, by decide, by decide⟩
  intro u hfm
  simp only [checkForIssues, specIssueReadyNoDate, specIssueRentedNotReady,
    specIssueDownButReady]
  rw [truthy_and_trim hfm, ite_chain_or]

/-- C9: whenever the classifier assigns `Available & Rent Ready (Flagged)`,
the record (with that category attached, as the pipeline does) is flagged by
`checkForIssues` — the Flagged branch forces `rentReady = "yes"` with no
actual date, which is the first issue check. -/
theorem flagged_category_implies_hasIssues (today : Int) (u : UnitRecord)
    (h : categorizeUnit today u = some "Available & Rent Ready (Flagged)") :
    checkForIssues { u with category := "Available & Rent Ready (Flagged)" } = true := by
  cases hrtl : cellToLower u.rentalType with
  | none => simp [categorizeUnit, hrtl] at h
  | some rt =>
    cases hcml : cellToLower u.comments with
    | none => simp [categorizeUnit, hrtl, hcml] at h
    | some cm =>
      simp only [categorizeUnit, hrtl, hcml, Option.some.injEq] at h
      unfold categorizeStr at h
      split_ifs at h with h1 h2 h3 h4
      · exact absurd h (by decide)
      · exact absurd h (by decide)
      · exact absurd h (by decide)
      · simp only [Bool.not_eq_true] at h4
        simp [checkForIssues, h3, h4]
      · rcases hest : u.estimatedReadyDate with _ | d
        · simp [hest] at h
        · rcases d with ms | _
          · simp only [hest] at h
            split_ifs at h <;> exact absurd h (by decide)
          · simp [hest] at h

/-- Witness for C3: the three-check equivalence applied to the concrete
record `rentedUnit`, for which check 2 fires. -/
theorem checkForIssues_three_checks_check :
    checkForIssues rentedUnit
      = (specIssueReadyNoDate rentedUnit || specIssueRentedNotReady rentedUnit
          || specIssueDownButReady rentedUnit)
    ∧ (specIssueReadyNoDate rentedUnit || specIssueRentedNotReady rentedUnit
        || specIssueDownButReady rentedUnit) = true :=
  ⟨checkForIssues_three_checks.1 rentedUnit (by decide), by decide⟩

/-- Witness for C9: the implication applied to the concrete record
`flaggedUnit` (rent-ready, empty actual date), which the classifier puts in
the Flagged category. -/
theorem flagged_category_implies_hasIssues_check :
    checkForIssues { flaggedUnit with category := "Available & Rent Ready (Flagged)" } = true :=
  flagged_category_implies_hasIssues t2024 flaggedUnit (by decide)

/-- Every result of the total classifier body is one of the eight
enumerated categories. -/
theorem categorizeStr_mem (today : Int) (u : UnitRecord) (rt cm : String) :
    categorizeStr today u rt cm ∈ categoriesList := by
  unfold categorizeStr
  split_ifs <;> try simp [categoriesList]
  rcases u.estimatedReadyDate with _ | d
  · simp [categoriesList]
  · rcases d with ms | _
    · by_cases h1 : jsCeilDiv (ms - today) msPerDay ≤ 30
      · simp [h1, categoriesList]
      · by_cases h2 : jsCeilDiv (ms - today) msPerDay ≤ 60
        · simp [h1, h2, categoriesList]
        · simp [h1, h2, categoriesList]
    · simp [categoriesList]

/-- C7 (amended): the classifier is total and lands in the eight-category
enumeration whenever the two fields it lower-cases, `rentalType` and
`comments`, are strings; with a number or `Date` cell in either field it
throws instead (see `categorizeUnit_throws_on_numeric_rentalType`). -/
theorem categorizeUnit_total_on_string_fields (today : Int) (u : UnitRecord)
    (hrt : isStrCell u.rentalType = true) (hcm : isStrCell u.comments = true) :
    ∃ c, categorizeUnit today u = some c ∧ c ∈ categoriesList := by
  obtain ⟨rs, hrs⟩ := isStrCell_exists hrt
  obtain ⟨cs, hcs⟩ := isStrCell_exists hcm
  exact ⟨_, categorizeUnit_on_strings today u hrs hcs, categorizeStr_mem today u _ _⟩

/-- Counterexample to C7 as stated: a syntactically valid record skeleton
whose `rentalType` holds a number cell makes `categorizeUnit` throw a
`TypeError` (`unit.rentalType.toLowerCase` is not a function), modelled by
`none` — it neither returns a category nor is total over number cells. -/
theorem categorizeUnit_throws_on_numeric_rentalType :
    categorizeUnit t2024 numRentalUnit = none := by decide

/-- Witness for C7 (amended): totality applied to the concrete all-string
record `baseUnit`. -/
theorem categorizeUnit_total_on_string_fields_check :
    ∃ c, categorizeUnit t2024 baseUnit = some c ∧ c ∈ categoriesList :=
  categorizeUnit_total_on_string_fields t2024 baseUnit (by decide) (by decide)

/-- C6 (amended): `parseDate` returns `null` exactly on falsy,
whitespace-only or not-three-slash-part input, and never errors; but on a
three-part input it always returns a `Date` object, which is a valid date
exactly when every part parses under `parseInt` *and* the assembled time
value lies within ECMAScript's `±8.64e15` ms clamp, and the *Invalid Date*
— not `null` — otherwise (non-numeric part, or a date out of range such as
year 9999999). -/
theorem parseDate_shape_characterization (c : Cell) :
    (parseDate c = none ↔ parseDateAttempted c = false)
    ∧ ((∃ ms, parseDate c = some (JSDate.valid ms))
        ↔ (parseDateAttempted c = true ∧ datePartsNumeric c = true
            ∧ dateInRange (rawDateMs c) = true))
    ∧ (parseDate c = some JSDate.invalid
        ↔ (parseDateAttempted c = true
            ∧ (datePartsNumeric c = false ∨ dateInRange (rawDateMs c) = false))) := by
  unfold parseDate parseDateAttempted datePartsNumeric rawDateMs dateParts dateTrimmed
  by_cases h1 : cellTruthy c
  · simp only [h1, Bool.not_true, Bool.false_eq_true, if_false]
    by_cases h2 : (trimChars (c.toStr).data).isEmpty
    · simp [h2]
    · simp only [h2, Bool.not_false, if_true, if_false]
      rcases hp : splitOnChar '/' (trimChars (c.toStr).data) with _ | ⟨p1, _ | ⟨p2, _ | ⟨p3, _ | ⟨p4, t⟩⟩⟩⟩
      · simp [h1, h2]
      · simp [h1, h2]
      · simp [h1, h2]
      · rcases ha : jsParseIntL p1 with _ | a
        · simp [jsDateCtor, h1, h2, ha]
        · rcases hb : jsParseIntL p2 with _ | b
          · simp [jsDateCtor, h1, h2, ha, hb]
          · rcases hc : jsParseIntL p3 with _ | cc
            · simp [jsDateCtor, h1, h2, ha, hb, hc]
            · by_cases hr : dateInRange (jsDateYMD cc (a - 1) b) = true
              · simp [jsDateCtor, timeClip, h1, h2, ha, hb, hc, hr]
              · simp [jsDateCtor, timeClip, h1, h2, ha, hb, hc, hr]
      · simp [h1, h2]
  · simp only [Bool.not_eq_true] at h1
    simp [h1]

/-- Counterexample to C6 as stated: neither failure mode yields `null`.  The
slash-separated but non-numeric input `"a/b/c"` gives `new Date(NaN, NaN,
NaN)`, the Invalid Date wrapped in `some`; and the fully numeric
`"1/1/9999999"` — an `M/D/Y` slash string the claim calls valid — builds a
time value past the `±8.64e15` ms clamp, so it too is the Invalid Date. -/
theorem parseDate_nonnumeric_slash_invalid :
    (parseDate (Cell.str "a/b/c") = some JSDate.invalid
      ∧ parseDate (Cell.str "a/b/c") ≠ none)
    ∧ parseDate (Cell.str "1/1/9999999") = some JSDate.invalid := by decide

/-- Nonnegativity of an exact decimal is the sign of its mantissa. -/
theorem leb_zero_iff (q : JSNum) :
    JSNum.leb jsNumZero q = true ↔ 0 ≤ q.mant := by
  simp [JSNum.leb, jsNumZero]

/-- C5 (amended): the stored `askingRent` is `parseFloat(cell) || 0` — `0`
exactly for unparseable input and for a parsed zero, the parsed value
verbatim otherwise; so it is nonnegative if and only if that normalized
value has nonnegative sign, and a cell parsing to a negative number is
stored negative (see `askingRent_negative_possible`). -/
theorem askingRent_normalization (row : List Cell) :
    (cellParseFloat (getCell row 8) = none → (buildRaw row).askingRent = jsNumZero)
    ∧ (∀ q, cellParseFloat (getCell row 8) = some q →
        (buildRaw row).askingRent = q ∨ (q.mant = 0 ∧ (buildRaw row).askingRent = jsNumZero))
    ∧ (JSNum.leb jsNumZero (buildRaw row).askingRent = true
        ↔ 0 ≤ (jsOr0 (cellParseFloat (getCell row 8))).mant) := by
  have har : (buildRaw row).askingRent = jsOr0 (cellParseFloat (getCell row 8)) := rfl
  refine ⟨?_, ?_, ?_⟩
  · intro h
    rw [har, h]
    rfl
  · intro q h
    rw [har, h]
    by_cases hz : q.mant = 0
    · right
      exact ⟨hz, by simp [jsOr0, hz]⟩
    · left
      simp [jsOr0, hz]
  · rw [har]
    exact leb_zero_iff _

/-- Counterexample to C5 as stated: a full extraction run on a grid whose
rent cell is `"-5"` stores the negative value `-5`, because
`parseFloat("-5") || 0` keeps every truthy parse, negative ones included. -/
theorem askingRent_negative_possible :
    (cleanAndProcessData t2024 gridNegRent).map (fun l => l.map UnitRecord.askingRent)
        = some [⟨-5, 0⟩]
      ∧ JSNum.ltb ⟨-5, 0⟩ jsNumZero = true := by decide

/-- Witness for C5 (amended): the normalization applied to the concrete rent
cell `"-5"`, which parses, is nonzero, and is stored verbatim. -/
theorem askingRent_normalization_check :
    (buildRaw rowNegRent).askingRent = (⟨-5, 0⟩ : JSNum)
      ∨ ((⟨-5, 0⟩ : JSNum).mant = 0 ∧ (buildRaw rowNegRent).askingRent = jsNumZero) :=
  (askingRent_normalization rowNegRent).2.1 ⟨-5, 0⟩ (by decide)

/-- The extraction loop, started at any index, is the claim's
filter-then-traverse: select exactly the rows passing the per-row checks,
in order, and build a record from each, aborting only if a build throws. -/
theorem processFrom_eq (today : Int) :
    ∀ (rows : List (List Cell)) (n : Nat),
      processFrom today n rows
        = mapMOpt (buildUnit today)
            (((withIdx n rows).filter (fun p => specIncludesRow p.1 p.2)).map Prod.snd) := by
  intro rows
  induction rows with
  | nil => intro n; rfl
  | cons row rest ih =>
    intro n
    by_cases hn : n < 6
    · have hspec : specIncludesRow n row = false := by
        have h6 : ¬ (6 ≤ n) := by omega
        simp [specIncludesRow, h6]
      simp only [processFrom, withIdx, List.filter_cons]
      simp [hn, hspec, ih]
    · have h6 : 6 ≤ n := by omega
      by_cases h1 : rowHasContent row
      · by_cases h2 : hasSub (jsToLower (firstCellOf row)) "total"
        · have hspec : specIncludesRow n row = false := by
            simp [specIncludesRow, h2]
          simp only [processFrom, withIdx, List.filter_cons]
          simp [hn, h1, h2, hspec, ih]
        · by_cases h3 : regexIdent (firstCellOf row)
          · by_cases h4 : hasUnitData row
            · have hspec : specIncludesRow n row = true := by
                simp [specIncludesRow, h6, h1, h2, h3, h4]
              cases hb : buildUnit today row with
              | none =>
                simp only [processFrom, withIdx, List.filter_cons]
                simp [hn, h1, h2, h3, h4, hspec, hb, mapMOpt]
              | some u =>
                simp only [processFrom, withIdx, List.filter_cons]
                simp [hn, h1, h2, h3, h4, hspec, hb, mapMOpt, ih]
            · have hspec : specIncludesRow n row = false := by
                simp [specIncludesRow, h4]
              simp only [processFrom, withIdx, List.filter_cons]
              simp [hn, h1, h2, h3, h4, hspec, ih]
          · have hspec : specIncludesRow n row = false := by
              simp [specIncludesRow, h3]
            simp only [processFrom, withIdx, List.filter_cons]
            simp [hn, h1, h2, h3, hspec, ih]
      · have hspec : specIncludesRow n row = false := by
          simp [specIncludesRow, h1]
        simp only [processFrom, withIdx, List.filter_cons]
        simp [hn, h1, hspec, ih]

/-- C4 (amended): extraction is exactly the claim's per-row decision — a row
is included if and only if its index is at least 6, it has a non-blank
cell, its first cell has no `"total"`, matches the identifier pattern and
has unit data; included rows are mapped in order.  The one caveat the
counterexample `cleanAndProcessData_rejects_whole_grid` forces: when a kept
row's classifier throws, the whole extraction aborts rather than skipping
the row. -/
theorem cleanAndProcessData_filter_shape (today : Int) (rows : List (List Cell)) :
    cleanAndProcessData today rows
      = mapMOpt (buildUnit today)
          (((withIdx 0 rows).filter (fun p => specIncludesRow p.1 p.2)).map Prod.snd) :=
  processFrom_eq today rows 0

/-- Counterexample to C4 as stated ("extraction never rejects the whole
grid"): a grid whose seventh row passes every check but holds a numeric
`rentalType` cell makes the classifier throw, and the exception aborts the
whole pass — no row at all is extracted. -/
theorem cleanAndProcessData_rejects_whole_grid :
    cleanAndProcessData t2024 gridNumRental = none := by decide

/-- A blank-like cell never counts as row content. -/
theorem blankish_no_content {c : Cell} (h : blankishCell c = true) :
    (cellTruthy c && !(jsTrim c.toStr == "")) = false := by
  cases c with
  | str s =>
    simp only [blankishCell] at h
    simp [Cell.toStr, h]
  | num q =>
    simp only [blankishCell] at h
    simp [cellTruthy, h]
  | date ms => simp [blankishCell] at h
  | empty => simp [cellTruthy]

/-- A row of blank-like cells fails the blank-row check. -/
theorem blankish_row_no_content {row : List Cell}
    (h : ∀ c ∈ row, blankishCell c = true) : rowHasContent row = false := by
  rw [rowHasContent]
  rw [List.any_eq_false]
  intro c hc
  simp [blankish_no_content (h c hc)]

/-- A grid of blank-like rows extracts to nothing, from any start index. -/
theorem processFrom_blank (today : Int) :
    ∀ (rows : List (List Cell)) (n : Nat),
      (∀ row ∈ rows, ∀ c ∈ row, blankishCell c = true) →
      processFrom today n rows = some [] := by
  intro rows
  induction rows with
  | nil => intro n _; rfl
  | cons row rest ih =>
    intro n h
    have hrow : rowHasContent row = false :=
      blankish_row_no_content (h row (List.mem_cons_self row rest))
    have hrest : ∀ r ∈ rest, ∀ c ∈ r, blankishCell c = true :=
      fun r hr => h r (List.mem_cons_of_mem row hr)
    by_cases hn : n < 6
    · simp only [processFrom]
      simp [hn, ih _ hrest]
    · simp only [processFrom]
      simp [hn, hrow, ih _ hrest]

/-- C10: a cell holding the number 0 is falsy, so (1) a row made entirely of
empty, whitespace-only or numeric-zero cells is dropped as blank wherever it
sits, (2) a numeric-zero unit-type cell never yields unit data, and (3) with
a numeric-zero rent cell the unit-data check collapses to the
description-cell conjunct — the rent disjunct can never carry it. -/
theorem zero_cells_blank :
    (∀ (today : Int) (grid : List (List Cell)),
        (∀ row ∈ grid, ∀ c ∈ row, blankishCell c = true) →
        cleanAndProcessData today grid = some [])
    ∧ (∀ (row : List Cell) (q : JSNum), getCell row 1 = Cell.num q → q.mant = 0 →
        hasUnitData row = false)
    ∧ (∀ (row : List Cell) (q : JSNum), getCell row 8 = Cell.num q → q.mant = 0 →
        hasUnitData row
          = (cellTruthy (getCell row 1) && !(jsTrim (getCell row 1).toStr == "")
              && (cellTruthy (getCell row 2) && !(jsTrim (getCell row 2).toStr == "")))) := by
  refine ⟨?_, ?_, ?_⟩
  · intro today grid h
    exact processFrom_blank today grid 0 h
  · intro row q h hz
    simp [hasUnitData, h, cellTruthy, hz]
  · intro row q h hz
    simp [hasUnitData, h, cellTruthy, hz]

/-- Witness for C10: the blank-row fact on a concrete grid of zeros,
whitespace and `undefined`, and the two unit-data facts on concrete rows
with numeric-zero unit-type resp. rent cells. -/
theorem zero_cells_blank_check :
    cleanAndProcessData t2024 blankGrid = some []
    ∧ hasUnitData rowZeroType = false
    ∧ hasUnitData rowZeroRent
        = (cellTruthy (getCell rowZeroRent 1) && !(jsTrim (getCell rowZeroRent 1).toStr == "")
            && (cellTruthy (getCell rowZeroRent 2) && !(jsTrim (getCell rowZeroRent 2).toStr == ""))) :=
  ⟨zero_cells_blank.1 t2024 blankGrid (by decide),
   zero_cells_blank.2.1 rowZeroType ⟨0, 0⟩ (by decide) rfl,
   zero_cells_blank.2.2 rowZeroRent ⟨0, 0⟩ (by decide) rfl⟩

/-- `s || ''` is the identity on strings (the empty string maps to itself). -/
theorem cellOrEmptyStr_str (s : String) : cellOrEmptyStr (Cell.str s) = Cell.str s := by
  by_cases h : s = ""
  · rw [h]; rfl
  · simp [cellOrEmptyStr, cellTruthy, h]

/-- The derived-field assignments of `buildUnit` do not change the raw
fields: a successful build carries the raw view of `buildRaw`. -/
theorem buildUnit_rawOf (today : Int) (row : List Cell) (ru : UnitRecord)
    (h : buildUnit today row = some ru) : rawOf ru = rawOf (buildRaw row) := by
  unfold buildUnit at h
  cases hc : categorizeUnit today (buildRaw row) with
  | none => simp [hc] at h
  | some cat =>
    simp only [hc, Option.some.injEq] at h
    subst h
    rfl

/-- Starting the extraction loop below the header offset just drops the
leading rows. -/
theorem processFrom_skip (today : Int) :
    ∀ (rows : List (List Cell)) (i : Nat), i ≤ 6 →
      processFrom today i rows = processFrom today 6 (rows.drop (6 - i)) := by
  intro rows
  induction rows with
  | nil => intro i _; simp [processFrom]
  | cons row rest ih =>
    intro i hi
    rcases Nat.lt_or_ge i 6 with hlt | hge
    · have hstep : processFrom today i (row :: rest) = processFrom today (i + 1) rest := by
        simp [processFrom, hlt]
      have hd : (row :: rest).drop (6 - i) = rest.drop (6 - (i + 1)) := by
        have h61 : 6 - i = (6 - (i + 1)) + 1 := by omega
        rw [h61]
        rfl
      rw [hstep, ih (i + 1) (by omega), hd]
    · have h6 : i = 6 := by omega
      subst h6
      simp

/-- One pipeline-shaped record survives every extractor check of its own
export row, and rebuilding from that row reproduces the raw fields (with
`actualReadyDate` in its rendered form). -/
theorem wf_export_step (today : Int) (u : UnitRecord) (hwf : wfRecord u = true) :
    firstCellOf (exportRow u) = u.unitCode
    ∧ rowHasContent (exportRow u) = true
    ∧ hasSub (jsToLower (firstCellOf (exportRow u))) "total" = false
    ∧ regexIdent (firstCellOf (exportRow u)) = true
    ∧ hasUnitData (exportRow u) = true
    ∧ ∃ ru, buildUnit today (exportRow u) = some ru ∧ rawOf ru = expectedRaw u := by
  simp only [wfRecord, Bool.and_eq_true] at hwf
  obtain ⟨hw1, hw2, hw3, hw4, hw5, hw6, hw7, hw8, hw9, hw10, hw11, hw12, hw13, hw14,
    hw15, hw16, hw17, hw18⟩ := hwf
  have htr : jsTrim u.unitCode = u.unitCode := by simpa using hw1
  have hne : ¬ (u.unitCode = "") := by
    intro he
    rw [he] at hw2
    exact absurd hw2 (by decide)
  have hcode : firstCellOf (exportRow u) = u.unitCode := by
    show jsTrim (cellOrEmptyStr (Cell.str u.unitCode)).toStr = u.unitCode
    rw [cellOrEmptyStr_str]
    exact htr
  have hcontent : rowHasContent (exportRow u) = true := by
    have h0 : (cellTruthy (Cell.str u.unitCode)
        && !(jsTrim (Cell.str u.unitCode).toStr == "")) = true := by
      simp [cellTruthy, Cell.toStr, htr, hne]
    show List.any _ _ = true
    rw [List.any_eq_true]
    exact ⟨Cell.str u.unitCode, List.mem_cons_self _ _, h0⟩
  have htotal : hasSub (jsToLower (firstCellOf (exportRow u))) "total" = false := by
    rw [hcode]
    simpa using hw3
  have hregex : regexIdent (firstCellOf (exportRow u)) = true := by
    rw [hcode]; exact hw2
  have hunit : hasUnitData (exportRow u) = true := by
    show (cellTruthy u.unitType && !(jsTrim u.unitType.toStr == "")
      && ((cellTruthy u.unitDescription && !(jsTrim u.unitDescription.toStr == ""))
          || (cellTruthy (Cell.num u.askingRent)
              && JSNum.ltb jsNumZero u.askingRent))) = true
    rw [hw16, hw17]
    rcases (Bool.or_eq_true _ _).mp hw18 with hd | hr
    · simp [hd]
    · have hm : 0 < u.askingRent.mant := by
        simpa [JSNum.ltb, jsNumZero] using hr
      have hm0 : ¬ (u.askingRent.mant = 0) := by omega
      simp [cellTruthy, hm0, hr]
  refine ⟨hcode, hcontent, htotal, hregex, hunit, ?_⟩
  obtain ⟨rs, hrs⟩ := isStrCell_exists hw4
  obtain ⟨cs, hcs⟩ := isStrCell_exists hw5
  have hbrt : (buildRaw (exportRow u)).rentalType = Cell.str rs := by
    show cellOrEmptyStr u.rentalType = Cell.str rs
    rw [hrs, cellOrEmptyStr_str]
  have hbcm : (buildRaw (exportRow u)).comments = Cell.str cs := by
    show cellOrEmptyStr u.comments = Cell.str cs
    rw [hcs, cellOrEmptyStr_str]
  have hcat := categorizeUnit_on_strings today (buildRaw (exportRow u)) hbrt hbcm
  have hraw : rawOf (buildRaw (exportRow u)) = expectedRaw u := by
    simp only [rawOf, expectedRaw, RawView.mk.injEq]
    refine ⟨hcode, ?_, ?_, ?_, ?_, ?_, ?_, ?_, ?_, ?_, ?_, rfl, ?_, ?_⟩
    · simpa using hw6
    · simpa using hw7
    · show cellOrEmptyStr u.rentalType = u.rentalType
      rw [hrs, cellOrEmptyStr_str]
    · simpa using hw8
    · simpa using hw9
    · simpa using hw10
    · simpa using hw11
    · show jsOr0 (cellParseFloat (Cell.num u.askingRent)) = u.askingRent
      simpa using hw15
    · simpa using hw12
    · show jsToLower (cellOrEmptyStr (Cell.str u.rentReady)).toStr = u.rentReady
      rw [cellOrEmptyStr_str]
      simpa using hw14
    · simpa using hw13
    · show cellOrEmptyStr u.comments = u.comments
      rw [hcs, cellOrEmptyStr_str]
  cases hb : buildUnit today (exportRow u) with
  | none =>
    exfalso
    unfold buildUnit at hb
    simp [hcat] at hb
  | some ru =>
    exact ⟨ru, rfl, by rw [buildUnit_rawOf today _ ru hb, hraw]⟩

/-- Past the header offset, re-extraction of exported pipeline-shaped
records succeeds row by row and reproduces the raw fields in order. -/
theorem processFrom_export (today : Int) :
    ∀ (l : List UnitRecord) (n : Nat), 6 ≤ n → (∀ u ∈ l, wfRecord u = true) →
      ∃ l2, processFrom today n (l.map exportRow) = some l2
        ∧ l2.map rawOf = l.map expectedRaw := by
  intro l
  induction l with
  | nil => intro n _ _; exact ⟨[], rfl, rfl⟩
  | cons u rest ih =>
    intro n hn hwf
    obtain ⟨hcode, hcontent, htotal, hregex, hunit, ru, hbuild, hraw⟩ :=
      wf_export_step today u (hwf u (List.mem_cons_self u rest))
    obtain ⟨l2, hl2, hl2raw⟩ :=
      ih (n + 1) (by omega) (fun v hv => hwf v (List.mem_cons_of_mem u hv))
    refine ⟨ru :: l2, ?_, ?_⟩
    · have hn6 : ¬ (n < 6) := by omega
      simp only [List.map_cons, processFrom]
      simp [hn6, hcontent, htotal, hregex, hunit, hbuild, hl2]
    · simp [hraw, hl2raw]

/-- C8 (amended): re-extracting an export of pipeline-shaped records
succeeds and reproduces `unitCode`, `askingRent` and the raw passthrough
fields (`actualReadyDate` in its rendered string form) in order — but only
from the sixth record on: the extractor's fixed header offset consumes the
export's header row plus the first five data rows.  The counterexample
`export_reextract_loses_first_rows` shows the loss that forces this
restriction. -/
theorem export_reextract_roundtrip (today : Int) (l : List UnitRecord)
    (hwf : ∀ u ∈ l, wfRecord u = true) :
    ∃ l2, cleanAndProcessData today (exportGrid l) = some l2
      ∧ l2.map rawOf = (l.drop 5).map expectedRaw := by
  unfold cleanAndProcessData exportGrid
  rw [processFrom_skip today _ 0 (by omega)]
  have hdrop : (exportHeader :: l.map exportRow).drop (6 - 0) = (l.drop 5).map exportRow := by
    show (l.map exportRow).drop 5 = (l.drop 5).map exportRow
    exact (List.map_drop exportRow l 5).symm
  rw [hdrop]
  exact processFrom_export today (l.drop 5) 6 (by omega)
    (fun u hu => hwf u (List.mem_of_mem_drop hu))

/-- Counterexample to C8 as stated: exporting the single pipeline-shaped
record `wfUnit` and re-extracting the resulting two-row grid reproduces
nothing at all — the header offset swallows the only data row, so the round
trip does not hold "for every row". -/
theorem export_reextract_loses_first_rows :
    cleanAndProcessData t2024 (exportGrid [wfUnit]) = some []
      ∧ wfRecord wfUnit = true := by decide

/-- Witness for C8 (amended): six copies of `wfUnit` exported and
re-extracted leave exactly the sixth, with its raw fields reproduced. -/
theorem export_reextract_roundtrip_check :
    ∃ l2, cleanAndProcessData t2024 (exportGrid wfList6) = some l2
      ∧ l2.map rawOf = (wfList6.drop 5).map expectedRaw :=
  export_reextract_roundtrip t2024 wfList6 (by decide)
